import Mathlib

/-!
Shallow embedding of the order-fulfillment core of `ldc-shop`
(`src/_workers_next/src/app/callback/[id]/route.ts`, `processOrderFulfillment`).

The database is modelled as explicit lists of rows (orders, cards, products).
Each drizzle query or update in the source becomes a pure list operation, and
`processOrderFulfillment` becomes a function from a `DBState` to a result plus
the successor `DBState`.  JavaScript `number` amounts are modelled as rationals
(ℚ); `Date.now()` and `new Date()` are modelled by an explicit `now : Int`
parameter (milliseconds); thrown errors become `FulfillResult` constructors
that leave the state unchanged, because the source throws before any write.

Two parts of the program are not under `src/` and are modelled abstractly:
* `isPaymentOrder` (from `@/lib/payment`) is an abstract predicate parameter
  `isPay : String → Bool` on the product id.
* the `ORDER BY RANDOM() LIMIT 1` pick of the shared-product branch is
  modelled by an index parameter `pick : Nat` taken modulo the number of
  eligible rows, so that theorems quantify over every possible random pick.
* a possible failure of the phase-1 reserved-cards query (the
  `reservedOrderId` column may not exist; the source catches the error) is
  modelled by a flag `resOk : Bool`: when it is `false` the phase contributes
  zero claims, exactly as the `catch` block does.
-/

/-- Order status column.  The source compares against the string literals
`'pending'`, `'cancelled'`, `'paid'`, `'delivered'`. -/
inductive OrderStatus where
  | pending
  | cancelled
  | paid
  | delivered
deriving DecidableEq, Repr

/-- A row of the `orders` table, restricted to the columns the fulfillment
code reads or writes.  `amount` is the parsed `parseFloat(order.amount)`
value, modelled as a rational. -/
structure Order where
  orderId : String
  productId : String
  amount : ℚ
  quantity : Option Nat
  status : OrderStatus
  paidAt : Option Int
  deliveredAt : Option Int
  tradeNo : Option String
  cardKey : Option String
  currentPaymentId : Option String
deriving DecidableEq, Repr

/-- A row of the `cards` (inventory unit) table. -/
structure Card where
  id : Nat
  productId : String
  cardKey : String
  isUsed : Option Bool
  usedAt : Option Int
  reservedOrderId : Option String
  reservedAt : Option Int
deriving DecidableEq, Repr

/-- A row of the `products` table, restricted to the one column the
fulfillment code reads (`isShared`). -/
structure Product where
  id : String
  isShared : Option Bool
deriving DecidableEq, Repr

/-- The whole database state seen by `processOrderFulfillment`. -/
structure DBState where
  orders : List Order
  cards : List Card
  products : List Product
deriving DecidableEq, Repr

/-- The `status` field of a successful return (`'processed'` or
`'already_processed'`; `success: true` always accompanies it). -/
inductive FulfillStatus where
  | processed
  | alreadyProcessed
deriving DecidableEq, Repr

/-- Result of a fulfillment call: the two thrown errors, or the returned
`status` field. -/
inductive FulfillResult where
  | notFound
  | amountMismatch
  | ok (status : FulfillStatus)
deriving DecidableEq, Repr

/-- `order.quantity || 1`: JavaScript `||` replaces both `null`/`undefined`
and `0` by the default `1`. -/
def qtyOf : Option Nat → Nat
  | none => 1
  | some n => if n = 0 then 1 else n

/-- JavaScript `array.join('\n')`: the elements concatenated with a newline
between consecutive elements (empty string for the empty array). -/
def joinNewline : List String → String
  | [] => ""
  | [k] => k
  | k :: k2 :: ks => k ++ "\n" ++ joinNewline (k2 :: ks)

/-- `COALESCE(isUsed, 0) = 0`: an unset used-flag counts as unused. -/
def cardUnused (c : Card) : Bool :=
  !(c.isUsed.getD false)

/-- `db.update(orders).set(...).where(eq(orders.orderId, orderId))`:
apply `f` to every order row whose `orderId` matches. -/
def updateOrderRow (os : List Order) (oid : String) (f : Order → Order) : List Order :=
  os.map fun o => if o.orderId = oid then f o else o

/-- `db.update(cards).set({isUsed: true, usedAt, reservedOrderId: null,
reservedAt: null}).where(eq(cards.id, id))` — the phase-1 claim of one
reserved card. -/
def claimReserved (now : Int) (cid : Nat) (cs : List Card) : List Card :=
  cs.map fun c =>
    if c.id = cid then
      { c with isUsed := some true, usedAt := some now,
               reservedOrderId := none, reservedAt := none }
    else c

/-- `db.update(cards).set({isUsed: true, usedAt}).where(eq(cards.id, id))` —
the phase-2 claim of one pool card (reservation fields left untouched). -/
def claimAvailable (now : Int) (cid : Nat) (cs : List Card) : List Card :=
  cs.map fun c =>
    if c.id = cid then { c with isUsed := some true, usedAt := some now }
    else c

/-- A database state with the orders table replaced. -/
def withOrders (st : DBState) (os : List Order) : DBState :=
  { st with orders := os }

/-- A database state with the orders and cards tables replaced. -/
def withOrdersCards (st : DBState) (os : List Order) (cs : List Card) : DBState :=
  { st with orders := os, cards := cs }

/-- The `db.query.products.findFirst({where: eq(products.id, order.productId),
columns: {isShared: true}})` lookup followed by the truthiness test of
`product?.isShared`: a missing product row or a null column count as
not shared. -/
def productIsShared (ps : List Product) (pid : String) : Bool :=
  match ps.find? (fun p => p.id = pid) with
  | none => false
  | some p => p.isShared.getD false

/-- The shared-product eligibility query:
`cards.productId = order.productId AND COALESCE(cards.isUsed, 0) = 0`. -/
def sharedEligible (cs : List Card) (pid : String) : List Card :=
  cs.filter fun c => c.productId = pid && cardUnused c

/-- The phase-1 (reserved claim) selection:
`cards.reservedOrderId = orderId AND COALESCE(cards.isUsed, 0) = 0`,
`LIMIT quantity`. -/
def phase1Select (cs : List Card) (oid : String) (quantity : Nat) : List Card :=
  (cs.filter fun c => c.reservedOrderId = some oid && cardUnused c).take quantity

/-- Whether a card's soft reservation does not block a phase-2 claim:
`reservedAt IS NULL OR reservedAt < oneMinuteAgo` with
`oneMinuteAgo = Date.now() - 60000`. -/
def reservationFreeOrStale (now : Int) (c : Card) : Bool :=
  match c.reservedAt with
  | none => true
  | some t => t < now - 60000

/-- The phase-2 (pool claim) eligibility query:
`cards.productId = order.productId AND COALESCE(cards.isUsed, 0) = 0 AND
(cards.reservedAt IS NULL OR cards.reservedAt < oneMinuteAgo)`. -/
def phase2Eligible (now : Int) (cs : List Card) (pid : String) : List Card :=
  cs.filter fun c => c.productId = pid && cardUnused c && reservationFreeOrStale now c

/-- The exhaustible-product allocation (phase 1 then phase 2 of the source):
returns the claimed card keys in claim order together with the updated card
table.  `resOk = false` models the caught failure of the phase-1 query
(`reservedOrderId column might not exist`), which degrades phase 1 to zero
claims. -/
def exhaustibleAllocate (now : Int) (resOk : Bool) (cs : List Card)
    (oid pid : String) (quantity : Nat) : List String × List Card :=
  let reserved := if resOk then phase1Select cs oid quantity else []
  let keys1 := reserved.map (·.cardKey)
  let cs1 := reserved.foldl (fun acc c => claimReserved now c.id acc) cs
  if keys1.length < quantity then
    let needed := quantity - keys1.length
    let avail := (phase2Eligible now cs1 pid).take needed
    let keys2 := avail.map (·.cardKey)
    let cs2 := avail.foldl (fun acc c => claimAvailable now c.id acc) cs1
    (keys1 ++ keys2, cs2)
  else
    (keys1, cs1)

/-- The order update of a successful delivery in the exhaustible branch. -/
def deliverOrderUpdate (now : Int) (tradeNo : String) (joined : String) (o : Order) : Order :=
  { o with status := .delivered, paidAt := some now, deliveredAt := some now,
           tradeNo := some tradeNo, cardKey := some joined }

/-- The order update of the no-stock outcome (`status: 'paid'`). -/
def paidOrderUpdate (now : Int) (tradeNo : String) (o : Order) : Order :=
  { o with status := .paid, paidAt := some now, tradeNo := some tradeNo }

/-- The order update of a shared-product delivery: like a delivery, and also
`currentPaymentId: null`. -/
def sharedDeliverUpdate (now : Int) (tradeNo : String) (joined : String) (o : Order) : Order :=
  { deliverOrderUpdate now tradeNo joined o with currentPaymentId := none }

/-- `processOrderFulfillment(orderId, paidAmount, tradeNo)` from
`src/_workers_next/src/app/callback/[id]/route.ts`, as a pure state
transformer.  Extra parameters model the environment: `isPay` is
`isPaymentOrder` (code not under `src/`), `now` is the clock, `pick` the
random shared-card pick, `resOk` the availability of the reservation
columns. -/
def processOrderFulfillment (isPay : String → Bool) (now : Int) (pick : Nat)
    (resOk : Bool) (st : DBState) (orderId : String) (paidAmount : ℚ)
    (tradeNo : String) : FulfillResult × DBState :=
  match st.orders.find? (fun o => o.orderId = orderId) with
  | none => (.notFound, st)
  | some order =>
    if |paidAmount - order.amount| > 1/100 then
      (.amountMismatch, st)
    else if isPay order.productId then
      if order.status = .pending ∨ order.status = .cancelled then
        (.ok .processed,
         { st with orders := updateOrderRow st.orders orderId (paidOrderUpdate now tradeNo) })
      else
        (.ok .processed, st)
    else if order.status = .pending ∨ order.status = .cancelled then
      if productIsShared st.products order.productId then
        match sharedEligible st.cards order.productId with
        | [] =>
          (.ok .processed,
           { st with orders := updateOrderRow st.orders orderId (paidOrderUpdate now tradeNo) })
        | c :: rest =>
          let elig := c :: rest
          let chosen := elig.getD (pick % elig.length) c
          let cardKeys := List.replicate (qtyOf order.quantity) chosen.cardKey
          let upd := sharedDeliverUpdate now tradeNo (joinNewline cardKeys)
          (.ok .processed, { st with orders := updateOrderRow st.orders orderId upd })
      else
        let quantity := qtyOf order.quantity
        let alloc := exhaustibleAllocate now resOk st.cards orderId order.productId quantity
        let cardKeys := alloc.1
        let cards' := alloc.2
        if cardKeys.length > 0 then
          let upd := deliverOrderUpdate now tradeNo (joinNewline cardKeys)
          (.ok .processed,
           { st with orders := updateOrderRow st.orders orderId upd, cards := cards' })
        else
          let upd := paidOrderUpdate now tradeNo
          (.ok .processed,
           { st with orders := updateOrderRow st.orders orderId upd, cards := cards' })
    else
      (.ok .alreadyProcessed, st)

/-! ### Concrete fixtures (orders, cards, products and database states used
to instantiate the theorems on explicit inputs) -/

/-- An `isPaymentOrder` predicate under which no product is of the
payment-only kind. -/
def noPay : String → Bool := fun _ => false

/-- An `isPaymentOrder` predicate under which every product is of the
payment-only kind. -/
def allPay : String → Bool := fun _ => true

/-- A pending order of two units of product `"P"` with amount 9.99. -/
def sampleOrder : Order :=
  { orderId := "O1", productId := "P", amount := 999/100, quantity := some 2,
    status := .pending, paidAt := none, deliveredAt := none, tradeNo := none,
    cardKey := none, currentPaymentId := some "pay1" }

/-- An unused, unreserved card of product `"P"`. -/
def sampleCardA : Card :=
  { id := 1, productId := "P", cardKey := "K1", isUsed := none, usedAt := none,
    reservedOrderId := none, reservedAt := none }

/-- An unused card of product `"P"`, soft-reserved for order `"O1"` at a
stale timestamp. -/
def sampleCardB : Card :=
  { id := 2, productId := "P", cardKey := "K2", isUsed := some false, usedAt := none,
    reservedOrderId := some "O1", reservedAt := some 100 }

/-- An unused card of product `"P"`, freshly reserved for another order
(`"OX"`) at timestamp 999999. -/
def sampleCardFresh : Card :=
  { id := 3, productId := "P", cardKey := "K3", isUsed := some false, usedAt := none,
    reservedOrderId := some "OX", reservedAt := some 999999 }

/-- Product `"P"` as an exhaustible (non-shared) product. -/
def sampleProduct : Product := { id := "P", isShared := some false }

/-- Product `"P"` as a shared product. -/
def sampleSharedProduct : Product := { id := "P", isShared := some true }

/-- A database with the pending sample order, two claimable cards and the
exhaustible product row. -/
def sampleState : DBState :=
  { orders := [sampleOrder], cards := [sampleCardA, sampleCardB],
    products := [sampleProduct] }

/-- The sample database with the order already in a terminal state. -/
def sampleStateDelivered : DBState :=
  { sampleState with orders := [{ sampleOrder with status := .delivered }] }

/-- The sample database with the order already paid. -/
def sampleStatePaid : DBState :=
  { sampleState with orders := [{ sampleOrder with status := .paid }] }

/-- The sample database with the shared product row instead. -/
def sampleSharedState : DBState :=
  { sampleState with products := [sampleSharedProduct] }

/-- An unused, unreserved card of product `"P"` distinct from
`sampleCardA`. -/
def sampleCardC : Card :=
  { id := 2, productId := "P", cardKey := "K2", isUsed := none, usedAt := none,
    reservedOrderId := none, reservedAt := none }

/-- An unused card of product `"P"` whose key is the empty string. -/
def emptyKeyCard : Card :=
  { id := 9, productId := "P", cardKey := "", isUsed := none, usedAt := none,
    reservedOrderId := none, reservedAt := none }

/-- The sample database where the only card of the product has an empty
key. -/
def emptyKeyState : DBState :=
  { orders := [sampleOrder], cards := [emptyKeyCard], products := [sampleProduct] }

/-- The card the shared branch picks: the random pick, modelled as index
`pick` modulo the number of eligible rows, among the cards the shared
eligibility query returns (`none` when no card is eligible). -/
def sharedPick (cs : List Card) (pid : String) (pick : Nat) : Option Card :=
  match sharedEligible cs pid with
  | [] => none
  | c :: rest => some ((c :: rest).getD (pick % (c :: rest).length) c)

/-- A delivered order of product `"P"` holding key `"K9"`. -/
def deliveredOrder : Order :=
  { orderId := "O9", productId := "P", amount := 999/100, quantity := some 1,
    status := .delivered, paidAt := some 5, deliveredAt := some 5, tradeNo := some "T0",
    cardKey := some "K9", currentPaymentId := none }

/-- A database holding the delivered order next to the pending sample
order. -/
def deliveredState : DBState :=
  { orders := [deliveredOrder, sampleOrder], cards := [sampleCardA, sampleCardB],
    products := [sampleProduct] }

/-- A pending quantity-1 order of product `"P"` with id `"OA"`. -/
def orderA : Order :=
  { orderId := "OA", productId := "P", amount := 5, quantity := some 1,
    status := .pending, paidAt := none, deliveredAt := none, tradeNo := none,
    cardKey := none, currentPaymentId := none }

/-- A pending quantity-1 order of product `"P"` with id `"OB"`. -/
def orderB : Order :=
  { orderId := "OB", productId := "P", amount := 5, quantity := some 1,
    status := .pending, paidAt := none, deliveredAt := none, tradeNo := none,
    cardKey := none, currentPaymentId := none }

/-- Two distinct quantity-1 pending orders against a pool of exactly two
unused units of the same exhaustible product. -/
def raceState : DBState :=
  { orders := [orderA, orderB], cards := [sampleCardA, sampleCardC],
    products := [sampleProduct] }

/-- One interleaving of the two concurrent fulfillment calls for `"OA"` and
`"OB"` on `raceState`-like states.  Every step below is one of the database
statements the source awaits, in a legal order for two concurrent calls:
both phase-1 selects (line 114 of the source) return nothing because no card
is reserved; both phase-2 selects (line 140) read the same snapshot, before
either call's card update (lines 145-153) has landed; then each call marks
its selected card used and delivers its order (lines 161-169).  The source
claims cards by a read-then-separate-write pair, not an atomic conditional
update, so this interleaving is possible. -/
def racedFulfillment (now : Int) (st : DBState) (tn : String) : DBState :=
  let phase1A := phase1Select st.cards "OA" 1
  let phase1B := phase1Select st.cards "OB" 1
  let selA := (phase2Eligible now st.cards "P").take (1 - phase1A.length)
  let selB := (phase2Eligible now st.cards "P").take (1 - phase1B.length)
  let cards1 := selA.foldl (fun acc c => claimAvailable now c.id acc) st.cards
  let orders1 := updateOrderRow st.orders "OA"
    (deliverOrderUpdate now tn (joinNewline (selA.map (·.cardKey))))
  let cards2 := selB.foldl (fun acc c => claimAvailable now c.id acc) cards1
  let orders2 := updateOrderRow orders1 "OB"
    (deliverOrderUpdate now tn (joinNewline (selB.map (·.cardKey))))
  { orders := orders2, cards := cards2, products := st.products }

/-! ### Basic lemmas about the row-update primitives -/

theorem paidOrderUpdate_orderId (now : Int) (tn : String) (o : Order) :
    (paidOrderUpdate now tn o).orderId = o.orderId := rfl

theorem deliverOrderUpdate_orderId (now : Int) (tn j : String) (o : Order) :
    (deliverOrderUpdate now tn j o).orderId = o.orderId := rfl

theorem sharedDeliverUpdate_orderId (now : Int) (tn j : String) (o : Order) :
    (sharedDeliverUpdate now tn j o).orderId = o.orderId := rfl

/-- Looking up an order id after a row update finds the updated row, when the
update function does not change order ids. -/
theorem find?_updateOrderRow (os : List Order) (oid : String) (f : Order → Order)
    (hf : ∀ o, (f o).orderId = o.orderId) :
    (updateOrderRow os oid f).find? (fun o => o.orderId = oid) =
      (os.find? (fun o => o.orderId = oid)).map f := by
  induction os with
  | nil => rfl
  | cons a l ih =>
    by_cases h : a.orderId = oid
    · rw [updateOrderRow, List.map_cons, if_pos h]
      rw [List.find?_cons_of_pos _ (by simp [hf, h]),
          List.find?_cons_of_pos _ (by simp [h])]
      rfl
    · rw [updateOrderRow, List.map_cons, if_neg h]
      rw [List.find?_cons_of_neg _ (by simp [h]),
          List.find?_cons_of_neg _ (by simp [h])]
      exact ih

/-- A newline-join of at least one key is non-empty when every key is. -/
theorem joinNewline_ne_empty : ∀ ks : List String, ks ≠ [] →
    (∀ k ∈ ks, k ≠ "") → joinNewline ks ≠ ""
  | [], hne, _ => absurd rfl hne
  | [k], _, hk => by simpa [joinNewline] using hk k (by simp)
  | k :: k2 :: t, _, _ => by
    intro hcontra
    have hlen : (joinNewline (k :: k2 :: t)).length = 0 := by rw [hcontra]; rfl
    rw [joinNewline, String.length_append, String.length_append] at hlen
    have h1 : ("\n" : String).length = 1 := rfl
    rw [h1] at hlen
    omega

theorem sharedEligible_subset (cs : List Card) (pid : String) :
    ∀ c ∈ sharedEligible cs pid, c ∈ cs :=
  fun _ hc => (List.mem_filter.mp hc).1

theorem phase1Select_subset (cs : List Card) (oid : String) (q : Nat) :
    ∀ c ∈ phase1Select cs oid q, c ∈ cs :=
  fun _ hc => (List.mem_filter.mp (List.take_subset _ _ hc)).1

theorem phase2Eligible_subset (now : Int) (cs : List Card) (pid : String) :
    ∀ c ∈ phase2Eligible now cs pid, c ∈ cs :=
  fun _ hc => (List.mem_filter.mp hc).1

/-- Claiming a reserved card changes no card key. -/
theorem claimReserved_map_cardKey (now : Int) (cid : Nat) (cs : List Card) :
    (claimReserved now cid cs).map (·.cardKey) = cs.map (·.cardKey) := by
  rw [claimReserved, List.map_map]
  apply List.map_congr_left
  intro a _
  by_cases h : a.id = cid <;> simp [h]

/-- Claiming a pool card changes no card key. -/
theorem claimAvailable_map_cardKey (now : Int) (cid : Nat) (cs : List Card) :
    (claimAvailable now cid cs).map (·.cardKey) = cs.map (·.cardKey) := by
  rw [claimAvailable, List.map_map]
  apply List.map_congr_left
  intro a _
  by_cases h : a.id = cid <;> simp [h]

theorem foldl_claimReserved_map_cardKey (now : Int) (sel : List Card) (cs : List Card) :
    (sel.foldl (fun acc c => claimReserved now c.id acc) cs).map (·.cardKey) =
      cs.map (·.cardKey) := by
  induction sel generalizing cs with
  | nil => rfl
  | cons a t ih => rw [List.foldl_cons, ih, claimReserved_map_cardKey]

theorem foldl_claimAvailable_map_cardKey (now : Int) (sel : List Card) (cs : List Card) :
    (sel.foldl (fun acc c => claimAvailable now c.id acc) cs).map (·.cardKey) =
      cs.map (·.cardKey) := by
  induction sel generalizing cs with
  | nil => rfl
  | cons a t ih => rw [List.foldl_cons, ih, claimAvailable_map_cardKey]

/-- Every key returned by the exhaustible allocation is the key of some card
that was in the table when the allocation started. -/
theorem exhaustibleAllocate_keys_sub (now : Int) (resOk : Bool) (cs : List Card)
    (oid pid : String) (q : Nat) :
    ∀ k ∈ (exhaustibleAllocate now resOk cs oid pid q).1, k ∈ cs.map (·.cardKey) := by
  intro k hk
  rw [exhaustibleAllocate] at hk
  set reserved := if resOk then phase1Select cs oid q else [] with hres
  have hressub : ∀ c ∈ reserved, c ∈ cs := by
    intro c hc
    rw [hres] at hc
    rcases resOk with _ | _
    · simp at hc
    · exact phase1Select_subset cs oid q c hc
  set cs1 := reserved.foldl (fun acc c => claimReserved now c.id acc) cs with hcs1
  have hkeys1 : ∀ x ∈ reserved.map (·.cardKey), x ∈ cs.map (·.cardKey) := by
    intro x hx
    obtain ⟨c, hc, hcx⟩ := List.mem_map.mp hx
    exact hcx ▸ List.mem_map_of_mem _ (hressub c hc)
  by_cases hlt : (reserved.map (·.cardKey)).length < q
  · rw [if_pos hlt] at hk
    rcases List.mem_append.mp hk with hk1 | hk2
    · exact hkeys1 k hk1
    · obtain ⟨c, hc, hck⟩ := List.mem_map.mp hk2
      have hc1 : c ∈ cs1 :=
        phase2Eligible_subset now cs1 pid c (List.take_subset _ _ hc)
      have : c.cardKey ∈ cs1.map (·.cardKey) := List.mem_map_of_mem _ hc1
      rw [hcs1, foldl_claimReserved_map_cardKey] at this
      exact hck ▸ this
  · rw [if_neg hlt] at hk
    exact hkeys1 k hk

/-- The exhaustible allocation never claims more keys than the quantity. -/
theorem exhaustibleAllocate_keys_le (now : Int) (resOk : Bool) (cs : List Card)
    (oid pid : String) (q : Nat) :
    (exhaustibleAllocate now resOk cs oid pid q).1.length ≤ q := by
  rw [exhaustibleAllocate]
  set reserved := if resOk then phase1Select cs oid q else [] with hres
  have hlen1 : reserved.length ≤ q := by
    rw [hres]
    rcases resOk with _ | _
    · simp
    · simp [phase1Select]
  by_cases hlt : (reserved.map (·.cardKey)).length < q
  · rw [if_pos hlt]
    have h2 := List.length_take_le (q - (reserved.map (·.cardKey)).length)
      (phase2Eligible now (reserved.foldl (fun acc c => claimReserved now c.id acc) cs) pid)
    simp only [List.length_append, List.length_map] at *
    omega
  · rw [if_neg hlt]
    simpa using hlen1

/-- A mismatched amount makes the call throw before any write: the error is
returned with the state unchanged, whatever the order's status. -/
theorem fulfill_mismatch (isPay : String → Bool) (now : Int) (pick : Nat)
    (resOk : Bool) (st : DBState) (orderId : String) (pa : ℚ) (tn : String) (o : Order)
    (hfind : st.orders.find? (fun x => x.orderId = orderId) = some o)
    (hmm : |pa - o.amount| > 1/100) :
    processOrderFulfillment isPay now pick resOk st orderId pa tn = (.amountMismatch, st) := by
  rw [processOrderFulfillment, hfind]
  simp only [if_pos hmm]

/-- After the amount guard passes, every control path of the source returns
(`success: true` with) some status: no later check throws. -/
theorem fulfill_ok_of_amount_ok (isPay : String → Bool) (now : Int) (pick : Nat)
    (resOk : Bool) (st : DBState) (orderId : String) (pa : ℚ) (tn : String) (o : Order)
    (hfind : st.orders.find? (fun x => x.orderId = orderId) = some o)
    (hamt : ¬ |pa - o.amount| > 1/100) :
    ∃ s st', processOrderFulfillment isPay now pick resOk st orderId pa tn = (.ok s, st') := by
  rw [processOrderFulfillment, hfind]
  simp only [if_neg hamt]
  split
  · split
    · exact ⟨_, _, rfl⟩
    · exact ⟨_, _, rfl⟩
  · split
    · split
      · split
        · exact ⟨_, _, rfl⟩
        · exact ⟨_, _, rfl⟩
      · split
        · exact ⟨_, _, rfl⟩
        · exact ⟨_, _, rfl⟩
    · exact ⟨_, _, rfl⟩

/-- C2: for every `fulfill(orderId, paidAmount, tradeNo)` call where an order
with `orderId` exists, if `|paidAmount - order.amount| > 0.01` the call fails
with `AmountMismatch` and neither the orders nor the cards table is mutated
(the whole state is returned unchanged); if the absolute difference is at most
`0.01` the call does not fail with `AmountMismatch`. -/
theorem claim_amount_guard (isPay : String → Bool) (now : Int) (pick : Nat)
    (resOk : Bool) (st : DBState) (orderId : String) (pa : ℚ) (tn : String) (o : Order)
    (hfind : st.orders.find? (fun x => x.orderId = orderId) = some o) :
    (|pa - o.amount| > 1/100 →
      processOrderFulfillment isPay now pick resOk st orderId pa tn = (.amountMismatch, st)) ∧
    (|pa - o.amount| ≤ 1/100 →
      (processOrderFulfillment isPay now pick resOk st orderId pa tn).1 ≠ .amountMismatch) := by
  constructor
  · intro h
    rw [processOrderFulfillment, hfind]
    simp only [if_pos h]
  · intro h
    obtain ⟨s, st', heq⟩ :=
      fulfill_ok_of_amount_ok isPay now pick resOk st orderId pa tn o hfind (not_lt.mpr h)
    rw [heq]
    simp

/-- C2 witness: the amount guard at the sample state: paying 9.90 against the
9.99 order fails with a mismatch and changes nothing, while paying 9.99 does
not fail. -/
theorem claim_amount_guard_witness :
    processOrderFulfillment noPay 0 0 true sampleState "O1" (990/100) "T1" =
      (.amountMismatch, sampleState) ∧
    (processOrderFulfillment noPay 0 0 true sampleState "O1" (999/100) "T1").1 ≠
      .amountMismatch := by
  constructor
  · refine (claim_amount_guard noPay 0 0 true sampleState "O1" (990/100) "T1"
      sampleOrder rfl).1 ?_
    have h : (990:ℚ)/100 - sampleOrder.amount = -(9/100) := by
      rw [sampleOrder]; norm_num
    rw [h, abs_neg, abs_of_nonneg (by norm_num : (0:ℚ) ≤ 9/100)]
    norm_num
  · refine (claim_amount_guard noPay 0 0 true sampleState "O1" (999/100) "T1"
      sampleOrder rfl).2 ?_
    have h : (999:ℚ)/100 - sampleOrder.amount = 0 := by
      rw [sampleOrder]; norm_num
    rw [h]
    norm_num

/-- C10: the amount check runs before the terminal-state idempotency guard:
for an existing order in any status (in particular `paid` or `delivered`), a
call with `|paidAmount - order.amount| > 0.01` fails with `AmountMismatch`
instead of returning `already_processed`. -/
theorem claim_amount_before_idempotency (isPay : String → Bool) (now : Int)
    (pick : Nat) (resOk : Bool) (st : DBState) (orderId : String) (pa : ℚ)
    (tn : String) (o : Order)
    (hfind : st.orders.find? (fun x => x.orderId = orderId) = some o)
    (hmm : |pa - o.amount| > 1/100) :
    processOrderFulfillment isPay now pick resOk st orderId pa tn = (.amountMismatch, st) ∧
    (processOrderFulfillment isPay now pick resOk st orderId pa tn).1 ≠
      .ok .alreadyProcessed := by
  have h : processOrderFulfillment isPay now pick resOk st orderId pa tn =
      (.amountMismatch, st) := by
    rw [processOrderFulfillment, hfind]
    simp only [if_pos hmm]
  exact ⟨h, by rw [h]; simp⟩

/-- C10 witness: on the already-delivered sample order, paying 0 against the
9.99 amount yields the mismatch failure, not `already_processed`. -/
theorem claim_amount_before_idempotency_witness :
    processOrderFulfillment noPay 0 0 true sampleStateDelivered "O1" 0 "T1" =
      (.amountMismatch, sampleStateDelivered) ∧
    (processOrderFulfillment noPay 0 0 true sampleStateDelivered "O1" 0 "T1").1 ≠
      .ok .alreadyProcessed :=
  claim_amount_before_idempotency noPay 0 0 true sampleStateDelivered "O1" 0 "T1"
    { sampleOrder with status := .delivered } rfl
    (by
      have h : (0:ℚ) - ({ sampleOrder with status := .delivered } : Order).amount =
          -(999/100) := by
        rw [sampleOrder]; norm_num
      rw [h, abs_neg, abs_of_nonneg (by norm_num : (0:ℚ) ≤ 999/100)]
      norm_num)

/-- The payment-only branch of the source: with the amount guard passed and
`isPaymentOrder` true, a pending or cancelled order is marked paid and any
other status is left alone; both return `processed`. -/
theorem fulfill_payment_branch (isPay : String → Bool) (now : Int) (pick : Nat)
    (resOk : Bool) (st : DBState) (orderId : String) (pa : ℚ) (tn : String) (o : Order)
    (hfind : st.orders.find? (fun x => x.orderId = orderId) = some o)
    (hamt : ¬ |pa - o.amount| > 1/100) (hpay : isPay o.productId = true) :
    processOrderFulfillment isPay now pick resOk st orderId pa tn =
      if o.status = .pending ∨ o.status = .cancelled then
        (.ok .processed,
         { st with orders := updateOrderRow st.orders orderId (paidOrderUpdate now tn) })
      else
        (.ok .processed, st) := by
  rw [processOrderFulfillment, hfind]
  simp only [if_neg hamt, hpay, if_true]

/-- C3 counterexample: two fulfill calls that observe an order in a terminal
state and do not return `already_processed`.  First, a payment-only order
already `paid` (with the amount matching) returns `processed`.  Second, a
non-payment order already `delivered` but called with a mismatched amount
fails with `AmountMismatch`. -/
theorem claim_terminal_counterexample :
    ((sampleStatePaid.orders.find? (fun x => x.orderId = "O1")).map (·.status) =
       some .paid ∧
     (processOrderFulfillment allPay 0 0 true sampleStatePaid "O1" (999/100) "T1").1 =
       .ok .processed) ∧
    ((sampleStateDelivered.orders.find? (fun x => x.orderId = "O1")).map (·.status) =
       some .delivered ∧
     (processOrderFulfillment noPay 0 0 true sampleStateDelivered "O1" 0 "T1").1 =
       .amountMismatch) := by
  refine ⟨⟨rfl, ?_⟩, ⟨rfl, ?_⟩⟩
  · have hb := fulfill_payment_branch allPay 0 0 true sampleStatePaid "O1" (999/100) "T1"
      { sampleOrder with status := .paid } rfl
      (by
        have h : (999:ℚ)/100 - ({ sampleOrder with status := .paid } : Order).amount = 0 := by
          rw [sampleOrder]; norm_num
        rw [h]
        norm_num)
      rfl
    rw [hb]
    simp
  · have hm := fulfill_mismatch noPay 0 0 true sampleStateDelivered "O1" 0 "T1"
      { sampleOrder with status := .delivered } rfl
      (by
        have h : (0:ℚ) - ({ sampleOrder with status := .delivered } : Order).amount =
            -(999/100) := by
          rw [sampleOrder]; norm_num
        rw [h, abs_neg, abs_of_nonneg (by norm_num : (0:ℚ) ≤ 999/100)]
        norm_num)
    rw [hm]

/-- C3 (amended): for every fulfill call with the amount within tolerance on
an order of a non-payment product whose status is `paid` or `delivered`, the
call returns `already_processed` and mutates neither the orders nor the cards
table (the state is unchanged).  The amendment excludes payment-only orders
(which return `processed` in every status) and mismatched amounts (which fail
with `AmountMismatch`), as shown by the counterexample. -/
theorem claim_terminal_idempotent (isPay : String → Bool) (now : Int) (pick : Nat)
    (resOk : Bool) (st : DBState) (orderId : String) (pa : ℚ) (tn : String) (o : Order)
    (hfind : st.orders.find? (fun x => x.orderId = orderId) = some o)
    (hamt : |pa - o.amount| ≤ 1/100) (hpay : isPay o.productId = false)
    (hterm : o.status = .paid ∨ o.status = .delivered) :
    processOrderFulfillment isPay now pick resOk st orderId pa tn =
      (.ok .alreadyProcessed, st) := by
  rw [processOrderFulfillment, hfind]
  have hnp : ¬ (o.status = .pending ∨ o.status = .cancelled) := by
    rcases hterm with h | h <;> rw [h] <;> simp
  simp only [if_neg (not_lt.mpr hamt), hpay, Bool.false_eq_true, if_false, if_neg hnp]

/-- C3 (amended) witness: a second call on the delivered sample order with the
matching amount returns `already_processed` and leaves the state unchanged. -/
theorem claim_terminal_idempotent_witness :
    processOrderFulfillment noPay 0 0 true sampleStateDelivered "O1" (999/100) "T1" =
      (.ok .alreadyProcessed, sampleStateDelivered) :=
  claim_terminal_idempotent noPay 0 0 true sampleStateDelivered "O1" (999/100) "T1"
    { sampleOrder with status := .delivered } rfl
    (by
      have h : (999:ℚ)/100 - ({ sampleOrder with status := .delivered } : Order).amount =
          0 := by
        rw [sampleOrder]; norm_num
      rw [h]
      norm_num)
    rfl (Or.inr rfl)

/-- The exhaustible branch of the source as one equation: with the guards
passed, a pending/cancelled order of a non-shared product runs the two-phase
allocation, then is delivered when at least one key was claimed and marked
paid otherwise. -/
theorem fulfill_exhaustible_eq (isPay : String → Bool) (now : Int) (pick : Nat)
    (resOk : Bool) (st : DBState) (orderId : String) (pa : ℚ) (tn : String) (o : Order)
    (hfind : st.orders.find? (fun x => x.orderId = orderId) = some o)
    (hamt : ¬ |pa - o.amount| > 1/100) (hpay : isPay o.productId = false)
    (hstat : o.status = .pending ∨ o.status = .cancelled)
    (hsh : productIsShared st.products o.productId = false) :
    processOrderFulfillment isPay now pick resOk st orderId pa tn =
      (if 0 < (exhaustibleAllocate now resOk st.cards orderId o.productId
                 (qtyOf o.quantity)).1.length then
        (.ok .processed,
         withOrdersCards st
           (updateOrderRow st.orders orderId
             (deliverOrderUpdate now tn
               (joinNewline (exhaustibleAllocate now resOk st.cards orderId o.productId
                 (qtyOf o.quantity)).1)))
           (exhaustibleAllocate now resOk st.cards orderId o.productId (qtyOf o.quantity)).2)
      else
        (.ok .processed,
         withOrdersCards st
           (updateOrderRow st.orders orderId (paidOrderUpdate now tn))
           (exhaustibleAllocate now resOk st.cards orderId o.productId (qtyOf o.quantity)).2)) := by
  rw [processOrderFulfillment, hfind]
  simp only [if_neg hamt, hpay, Bool.false_eq_true, if_false, if_pos hstat, hsh]
  rfl

/-- The shared branch of the source as one equation: with the guards passed,
a pending/cancelled order of a shared product is marked paid when no card is
eligible, and otherwise delivered with the randomly picked eligible card's
key replicated `quantity` times, with `currentPaymentId` cleared and the
cards table untouched. -/
theorem fulfill_shared_eq (isPay : String → Bool) (now : Int) (pick : Nat)
    (resOk : Bool) (st : DBState) (orderId : String) (pa : ℚ) (tn : String) (o : Order)
    (hfind : st.orders.find? (fun x => x.orderId = orderId) = some o)
    (hamt : ¬ |pa - o.amount| > 1/100) (hpay : isPay o.productId = false)
    (hstat : o.status = .pending ∨ o.status = .cancelled)
    (hsh : productIsShared st.products o.productId = true) :
    processOrderFulfillment isPay now pick resOk st orderId pa tn =
      (match sharedEligible st.cards o.productId with
      | [] =>
        (.ok .processed,
         withOrders st (updateOrderRow st.orders orderId (paidOrderUpdate now tn)))
      | c :: rest =>
        (.ok .processed,
         withOrders st
           (updateOrderRow st.orders orderId
             (sharedDeliverUpdate now tn
               (joinNewline (List.replicate (qtyOf o.quantity)
                 ((c :: rest).getD (pick % (c :: rest).length) c).cardKey)))))) := by
  rw [processOrderFulfillment, hfind]
  simp only [if_neg hamt, hpay, Bool.false_eq_true, if_false, if_pos hstat, hsh, if_true]
  rfl

/-- C9: a fulfill call on an existing order of the payment-only kind with a
matching amount returns `processed` (never `already_processed`), never touches
the cards (the Allocation Engine is not reached), marks a pending or cancelled
order paid with `paidAt` and `tradeNo` set, and mutates nothing in any other
status. -/
theorem claim_payment_only (isPay : String → Bool) (now : Int) (pick : Nat)
    (resOk : Bool) (st : DBState) (orderId : String) (pa : ℚ) (tn : String) (o : Order)
    (hfind : st.orders.find? (fun x => x.orderId = orderId) = some o)
    (hamt : |pa - o.amount| ≤ 1/100) (hpay : isPay o.productId = true) :
    (processOrderFulfillment isPay now pick resOk st orderId pa tn).1 = .ok .processed ∧
    (processOrderFulfillment isPay now pick resOk st orderId pa tn).1 ≠
      .ok .alreadyProcessed ∧
    (processOrderFulfillment isPay now pick resOk st orderId pa tn).2.cards = st.cards ∧
    ((o.status = .pending ∨ o.status = .cancelled) →
      (processOrderFulfillment isPay now pick resOk st orderId pa tn).2.orders =
        updateOrderRow st.orders orderId (paidOrderUpdate now tn)) ∧
    (¬ (o.status = .pending ∨ o.status = .cancelled) →
      (processOrderFulfillment isPay now pick resOk st orderId pa tn).2 = st) := by
  have hb := fulfill_payment_branch isPay now pick resOk st orderId pa tn o hfind
    (not_lt.mpr hamt) hpay
  by_cases hs : o.status = .pending ∨ o.status = .cancelled
  · rw [if_pos hs] at hb
    rw [hb]
    refine ⟨rfl, by simp, rfl, fun _ => rfl, fun hns => absurd hs hns⟩
  · rw [if_neg hs] at hb
    rw [hb]
    exact ⟨rfl, by simp, rfl, fun h => absurd h hs, fun _ => rfl⟩

/-- C9 witness: with every product payment-only, fulfilling the pending
sample order marks it paid without touching the cards and returns
`processed`. -/
theorem claim_payment_only_witness :
    (processOrderFulfillment allPay 0 0 true sampleState "O1" (999/100) "T1").1 =
      .ok .processed ∧
    (processOrderFulfillment allPay 0 0 true sampleState "O1" (999/100) "T1").2.cards =
      sampleState.cards ∧
    (processOrderFulfillment allPay 0 0 true sampleState "O1" (999/100) "T1").2.orders =
      updateOrderRow sampleState.orders "O1" (paidOrderUpdate 0 "T1") := by
  have h := claim_payment_only allPay 0 0 true sampleState "O1" (999/100) "T1"
    sampleOrder rfl
    (by
      have hz : (999:ℚ)/100 - sampleOrder.amount = 0 := by rw [sampleOrder]; norm_num
      rw [hz]
      norm_num)
    rfl
  exact ⟨h.1, h.2.2.1, h.2.2.2.1 (Or.inl rfl)⟩

/-- C1: for a fulfill call (guards passed) on a pending or cancelled order of
a non-payment product, the final transition is decided by the number of
claimed units.  For an exhaustible product: at least one claimed key makes
the order `delivered` with `cardKey` the claimed keys joined by newline in
claim order (also when fewer than `quantity` were claimed), and zero claimed
keys make it `paid` with `cardKey` untouched.  For a shared product with no
eligible unit, the order likewise becomes `paid`.  The call returns
`processed` in every case. -/
theorem claim_claim_count_decides (isPay : String → Bool) (now : Int) (pick : Nat)
    (resOk : Bool) (st : DBState) (orderId : String) (pa : ℚ) (tn : String) (o : Order)
    (hfind : st.orders.find? (fun x => x.orderId = orderId) = some o)
    (hamt : |pa - o.amount| ≤ 1/100) (hpay : isPay o.productId = false)
    (hstat : o.status = .pending ∨ o.status = .cancelled) :
    (processOrderFulfillment isPay now pick resOk st orderId pa tn).1 = .ok .processed ∧
    (productIsShared st.products o.productId = false →
      ((exhaustibleAllocate now resOk st.cards orderId o.productId (qtyOf o.quantity)).1 ≠
          [] →
        (processOrderFulfillment isPay now pick resOk st orderId pa tn).2.orders.find?
            (fun x => x.orderId = orderId) =
          some (deliverOrderUpdate now tn
            (joinNewline (exhaustibleAllocate now resOk st.cards orderId o.productId
              (qtyOf o.quantity)).1) o)) ∧
      ((exhaustibleAllocate now resOk st.cards orderId o.productId (qtyOf o.quantity)).1 =
          [] →
        (processOrderFulfillment isPay now pick resOk st orderId pa tn).2.orders.find?
            (fun x => x.orderId = orderId) = some (paidOrderUpdate now tn o) ∧
        (paidOrderUpdate now tn o).cardKey = o.cardKey)) ∧
    (productIsShared st.products o.productId = true →
      sharedEligible st.cards o.productId = [] →
      (processOrderFulfillment isPay now pick resOk st orderId pa tn).2.orders.find?
          (fun x => x.orderId = orderId) = some (paidOrderUpdate now tn o) ∧
      (paidOrderUpdate now tn o).cardKey = o.cardKey) := by
  have hamt' : ¬ |pa - o.amount| > 1/100 := not_lt.mpr hamt
  by_cases hsh : productIsShared st.products o.productId = true
  · have hb := fulfill_shared_eq isPay now pick resOk st orderId pa tn o hfind hamt'
      hpay hstat hsh
    refine ⟨?_, fun hfalse => absurd hsh (by rw [hfalse]; simp), fun _ hse => ?_⟩
    · rw [hb]
      cases sharedEligible st.cards o.productId <;> rfl
    · rw [hb, hse]
      refine ⟨?_, rfl⟩
      show List.find? (fun x => x.orderId = orderId)
          (updateOrderRow st.orders orderId (paidOrderUpdate now tn)) =
        some (paidOrderUpdate now tn o)
      rw [find?_updateOrderRow st.orders orderId _ (paidOrderUpdate_orderId now tn), hfind]
      rfl
  · have hsh' : productIsShared st.products o.productId = false := by
      revert hsh
      cases productIsShared st.products o.productId <;> simp
    have hb := fulfill_exhaustible_eq isPay now pick resOk st orderId pa tn o hfind hamt'
      hpay hstat hsh'
    rw [hb]
    refine ⟨?_, fun _ => ⟨fun hne => ?_, fun hnil => ?_⟩, fun htrue _ => absurd htrue hsh⟩
    · by_cases hpos : 0 < (exhaustibleAllocate now resOk st.cards orderId o.productId
          (qtyOf o.quantity)).1.length
      · rw [if_pos hpos]
      · rw [if_neg hpos]
    · rw [if_pos (List.length_pos.mpr hne)]
      show List.find? (fun x => x.orderId = orderId)
          (updateOrderRow st.orders orderId
            (deliverOrderUpdate now tn
              (joinNewline (exhaustibleAllocate now resOk st.cards orderId o.productId
                (qtyOf o.quantity)).1))) =
        some (deliverOrderUpdate now tn
          (joinNewline (exhaustibleAllocate now resOk st.cards orderId o.productId
            (qtyOf o.quantity)).1) o)
      rw [find?_updateOrderRow st.orders orderId _ (deliverOrderUpdate_orderId now tn _),
        hfind]
      rfl
    · rw [if_neg (by rw [hnil]; simp)]
      refine ⟨?_, rfl⟩
      show List.find? (fun x => x.orderId = orderId)
          (updateOrderRow st.orders orderId (paidOrderUpdate now tn)) =
        some (paidOrderUpdate now tn o)
      rw [find?_updateOrderRow st.orders orderId _ (paidOrderUpdate_orderId now tn), hfind]
      rfl

/-- C1 witness: fulfilling the pending sample order (quantity 2) claims the
reserved card `"K2"` first and then the pool card `"K1"`, and delivers the
order with `cardKey` `"K2\nK1"`. -/
theorem claim_claim_count_decides_witness :
    (processOrderFulfillment noPay 1000000 0 true sampleState "O1" (999/100) "T1").1 =
      .ok .processed ∧
    List.find? (fun x => x.orderId = "O1")
        (processOrderFulfillment noPay 1000000 0 true sampleState "O1" (999/100) "T1").2.orders =
      some (deliverOrderUpdate 1000000 "T1" "K2\nK1" sampleOrder) := by
  have h := claim_claim_count_decides noPay 1000000 0 true sampleState "O1" (999/100) "T1"
    sampleOrder rfl
    (by
      have hz : (999:ℚ)/100 - sampleOrder.amount = 0 := by rw [sampleOrder]; norm_num
      rw [hz]
      norm_num)
    rfl (Or.inl rfl)
  refine ⟨h.1, ?_⟩
  have halloc : (exhaustibleAllocate 1000000 true sampleState.cards "O1"
      sampleOrder.productId (qtyOf sampleOrder.quantity)).1 = ["K2", "K1"] := by decide
  have h2 := (h.2.1 (by decide)).1 (by rw [halloc]; decide)
  rw [halloc] at h2
  exact h2

/-- C6: the no-double-claim property fails on the source under concurrency.
In the interleaving `racedFulfillment` of two fulfillments for the two
quantity-1 orders of `raceState` against a pool of exactly two unused units,
both orders are delivered the same unit (`"K1"`), so one unit is
double-assigned while the other (`"K2"`) remains unclaimed — because the
source claims a card with a separate select and update instead of an atomic
conditional update. -/
theorem claim_double_claim_race :
    (racedFulfillment 0 raceState "T").orders.map (fun o => (o.orderId, o.status, o.cardKey)) =
      [("OA", .delivered, some "K1"), ("OB", .delivered, some "K1")] ∧
    (racedFulfillment 0 raceState "T").cards.map (fun c => (c.cardKey, cardUnused c)) =
      [("K1", false), ("K2", true)] := by
  decide

/-- C4: a fulfill call (guards passed) on a pending or cancelled order of a
shared product with at least one eligible (unused) unit picks one eligible
unit (whichever the random pick selects), replicates its key `quantity`
times joined by newline into the order's `cardKey`, marks the order
`delivered` with `currentPaymentId` cleared, and leaves the cards table —
in particular the selected unit's used flag — unmutated. -/
theorem claim_shared_product_delivery (isPay : String → Bool) (now : Int) (pick : Nat)
    (resOk : Bool) (st : DBState) (orderId : String) (pa : ℚ) (tn : String) (o : Order)
    (hfind : st.orders.find? (fun x => x.orderId = orderId) = some o)
    (hamt : |pa - o.amount| ≤ 1/100) (hpay : isPay o.productId = false)
    (hstat : o.status = .pending ∨ o.status = .cancelled)
    (hsh : productIsShared st.products o.productId = true)
    (hne : sharedEligible st.cards o.productId ≠ []) :
    (processOrderFulfillment isPay now pick resOk st orderId pa tn).1 = .ok .processed ∧
    (processOrderFulfillment isPay now pick resOk st orderId pa tn).2.cards = st.cards ∧
    (sharedPick st.cards o.productId pick).isSome = true ∧
    ∀ chosen, sharedPick st.cards o.productId pick = some chosen →
      chosen ∈ sharedEligible st.cards o.productId ∧
      List.find? (fun x => x.orderId = orderId)
          (processOrderFulfillment isPay now pick resOk st orderId pa tn).2.orders =
        some (sharedDeliverUpdate now tn
          (joinNewline (List.replicate (qtyOf o.quantity) chosen.cardKey)) o) ∧
      (sharedDeliverUpdate now tn
        (joinNewline (List.replicate (qtyOf o.quantity) chosen.cardKey)) o).status =
        .delivered ∧
      (sharedDeliverUpdate now tn
        (joinNewline (List.replicate (qtyOf o.quantity) chosen.cardKey)) o).currentPaymentId =
        none := by
  have hb := fulfill_shared_eq isPay now pick resOk st orderId pa tn o hfind
    (not_lt.mpr hamt) hpay hstat hsh
  cases hse : sharedEligible st.cards o.productId with
  | nil => exact absurd hse hne
  | cons c rest =>
    rw [hb, hse]
    refine ⟨rfl, rfl, ?_, ?_⟩
    · rw [sharedPick, hse]
      rfl
    · intro chosen hch
      rw [sharedPick, hse] at hch
      have hch' : (c :: rest).getD (pick % (c :: rest).length) c = chosen :=
        Option.some.inj hch
      have hlt : pick % (c :: rest).length < (c :: rest).length :=
        Nat.mod_lt _ (by simp)
      refine ⟨?_, ?_, rfl, rfl⟩
      · rw [← hch', List.getD_eq_get _ _ hlt]
        exact List.get_mem _ _ _
      · rw [← hch']
        show List.find? (fun x => x.orderId = orderId)
            (updateOrderRow st.orders orderId
              (sharedDeliverUpdate now tn
                (joinNewline (List.replicate (qtyOf o.quantity)
                  ((c :: rest).getD (pick % (c :: rest).length) c).cardKey)))) =
          some (sharedDeliverUpdate now tn
            (joinNewline (List.replicate (qtyOf o.quantity)
              ((c :: rest).getD (pick % (c :: rest).length) c).cardKey)) o)
        rw [find?_updateOrderRow st.orders orderId _ (sharedDeliverUpdate_orderId now tn _),
          hfind]
        rfl

/-- C4 witness: on the shared sample state with pick 0, the order is
delivered `"K1\nK1"` (the key of the picked card `sampleCardA`, replicated
twice), and the cards table is unchanged. -/
theorem claim_shared_product_delivery_witness :
    (processOrderFulfillment noPay 0 0 true sampleSharedState "O1" (999/100) "T1").1 =
      .ok .processed ∧
    (processOrderFulfillment noPay 0 0 true sampleSharedState "O1" (999/100) "T1").2.cards =
      sampleSharedState.cards ∧
    List.find? (fun x => x.orderId = "O1")
        (processOrderFulfillment noPay 0 0 true sampleSharedState "O1" (999/100) "T1").2.orders =
      some (sharedDeliverUpdate 0 "T1" "K1\nK1" sampleOrder) := by
  have h := claim_shared_product_delivery noPay 0 0 true sampleSharedState "O1" (999/100)
    "T1" sampleOrder rfl
    (by
      have hz : (999:ℚ)/100 - sampleOrder.amount = 0 := by rw [sampleOrder]; norm_num
      rw [hz]
      norm_num)
    rfl (Or.inl rfl) (by decide) (by decide)
  have h4 := h.2.2.2 sampleCardA (by decide)
  have hj : joinNewline (List.replicate (qtyOf sampleOrder.quantity) sampleCardA.cardKey) =
      "K1\nK1" := by decide
  refine ⟨h.1, h.2.1, ?_⟩
  rw [← hj]
  exact h4.2.1

/-- C5: phase-2 eligibility and its interaction with phase 1.  A unit of the
order's product with the used flag unset whose reservation timestamp is
older than the fixed 60-second window is in the phase-2 pool (whoever it was
reserved for), while a unit with a fresh reservation never is; phase 2 does
not run when phase 1 already claimed the full quantity; and the allocation
never claims more keys than the quantity (phase 2 selects at most the
remaining count). -/
theorem claim_stale_reservation_reclaim (now : Int) (resOk : Bool) (cs : List Card)
    (oid pid : String) (q : Nat) :
    (∀ c ∈ cs, c.productId = pid → cardUnused c = true →
      ∀ t, c.reservedAt = some t → t < now - 60000 →
        c ∈ phase2Eligible now cs pid) ∧
    (∀ c t, c.reservedAt = some t → ¬ t < now - 60000 →
      c ∉ phase2Eligible now cs pid) ∧
    (q ≤ (if resOk then phase1Select cs oid q else []).length →
      exhaustibleAllocate now resOk cs oid pid q =
        ((if resOk then phase1Select cs oid q else []).map (·.cardKey),
         (if resOk then phase1Select cs oid q else []).foldl
           (fun acc c => claimReserved now c.id acc) cs)) ∧
    (exhaustibleAllocate now resOk cs oid pid q).1.length ≤ q := by
  refine ⟨?_, ?_, ?_, exhaustibleAllocate_keys_le now resOk cs oid pid q⟩
  · intro c hc hpid hun t hrt hstale
    rw [phase2Eligible, List.mem_filter]
    refine ⟨hc, ?_⟩
    simp [hpid, hun, reservationFreeOrStale, hrt, hstale]
  · intro c t hrt hfresh hmem
    rw [phase2Eligible, List.mem_filter] at hmem
    have h2 := hmem.2
    simp [reservationFreeOrStale, hrt] at h2
    exact hfresh h2.2
  · intro hge
    rw [exhaustibleAllocate]
    rw [if_neg (by rw [List.length_map]; omega)]

/-- C5 witness: with `sampleCardFresh` (reserved 999999, fresh) and
`sampleCardB` (reserved for another order at stale timestamp 100) in the
pool at time 1000000, order `"OB"` can claim `sampleCardB` in phase 2 but
not `sampleCardFresh`, and a quantity-1 allocation claims at most one key. -/
theorem claim_stale_reservation_reclaim_witness :
    sampleCardB ∈ phase2Eligible 1000000 [sampleCardFresh, sampleCardB] "P" ∧
    sampleCardFresh ∉ phase2Eligible 1000000 [sampleCardFresh, sampleCardB] "P" ∧
    (exhaustibleAllocate 1000000 true [sampleCardFresh, sampleCardB] "OB" "P" 1).1.length ≤
      1 := by
  have h := claim_stale_reservation_reclaim 1000000 true [sampleCardFresh, sampleCardB]
    "OB" "P" 1
  exact ⟨h.1 sampleCardB (by decide) (by decide) (by decide) 100 (by decide) (by decide),
    h.2.1 sampleCardFresh 999999 (by decide) (by decide), h.2.2.2⟩

theorem qtyOf_pos (q : Option Nat) : 0 < qtyOf q := by
  cases q with
  | none => decide
  | some n =>
    rw [qtyOf]
    by_cases h : n = 0
    · rw [if_pos h]
      decide
    · rw [if_neg h]
      omega

/-- C8: when the phase-1 reserved-unit lookup fails (`resOk = false`), the
failure is absorbed: the call still returns `processed` (it does not fail),
and the allocation equals a pure phase-2 allocation — phase 1 contributes
zero claims and phase 2 selects up to the full quantity from the pool of the
initial card table. -/
theorem claim_reservation_failure_degrades (isPay : String → Bool) (now : Int)
    (pick : Nat) (st : DBState) (orderId : String) (pa : ℚ) (tn : String) (o : Order)
    (hfind : st.orders.find? (fun x => x.orderId = orderId) = some o)
    (hamt : |pa - o.amount| ≤ 1/100) (hpay : isPay o.productId = false)
    (hstat : o.status = .pending ∨ o.status = .cancelled)
    (hsh : productIsShared st.products o.productId = false) :
    (processOrderFulfillment isPay now pick false st orderId pa tn).1 = .ok .processed ∧
    exhaustibleAllocate now false st.cards orderId o.productId (qtyOf o.quantity) =
      (((phase2Eligible now st.cards o.productId).take (qtyOf o.quantity)).map (·.cardKey),
       ((phase2Eligible now st.cards o.productId).take (qtyOf o.quantity)).foldl
         (fun acc c => claimAvailable now c.id acc) st.cards) := by
  constructor
  · have hb := fulfill_exhaustible_eq isPay now pick false st orderId pa tn o hfind
      (not_lt.mpr hamt) hpay hstat hsh
    rw [hb]
    by_cases hpos : 0 < (exhaustibleAllocate now false st.cards orderId o.productId
        (qtyOf o.quantity)).1.length
    · rw [if_pos hpos]
    · rw [if_neg hpos]
  · rw [exhaustibleAllocate]
    simp only [Bool.false_eq_true, if_false, List.map_nil, List.length_nil,
      List.foldl_nil, Nat.sub_zero, List.nil_append]
    rw [if_pos (qtyOf_pos o.quantity)]

/-- C8 witness: with the reservation lookup failing, fulfilling the pending
sample order still returns `processed`, and the allocation is the pure
phase-2 allocation over the initial card table. -/
theorem claim_reservation_failure_degrades_witness :
    (processOrderFulfillment noPay 1000000 0 false sampleState "O1" (999/100) "T1").1 =
      .ok .processed ∧
    exhaustibleAllocate 1000000 false sampleState.cards "O1" sampleOrder.productId
        (qtyOf sampleOrder.quantity) =
      (((phase2Eligible 1000000 sampleState.cards sampleOrder.productId).take
          (qtyOf sampleOrder.quantity)).map (·.cardKey),
       ((phase2Eligible 1000000 sampleState.cards sampleOrder.productId).take
          (qtyOf sampleOrder.quantity)).foldl
         (fun acc c => claimAvailable 1000000 c.id acc) sampleState.cards) := by
  have h := claim_reservation_failure_degrades noPay 1000000 0 sampleState "O1" (999/100)
    "T1" sampleOrder rfl
    (by
      have hz : (999:ℚ)/100 - sampleOrder.amount = 0 := by rw [sampleOrder]; norm_num
      rw [hz]
      norm_num)
    rfl (Or.inl rfl) (by decide)
  exact h

/-- Two order rows of a table with pairwise-distinct order ids that share an
order id are the same row. -/
theorem unique_orderId_eq {os : List Order}
    (huniq : os.Pairwise (fun a b => a.orderId ≠ b.orderId)) :
    ∀ a ∈ os, ∀ b ∈ os, a.orderId = b.orderId → a = b := by
  intro a ha b hb heq
  by_contra hne
  have hsymm : Symmetric (fun a b : Order => a.orderId ≠ b.orderId) := by
    intro x y h he
    exact h he.symm
  exact List.Pairwise.forall hsymm huniq ha hb hne heq

/-- Every row of an updated orders table comes from a row of the original
table, updated exactly when its id matches. -/
theorem mem_updateOrderRow {os : List Order} {oid : String} {f : Order → Order}
    {o2 : Order} (h : o2 ∈ updateOrderRow os oid f) :
    ∃ x ∈ os, o2 = if x.orderId = oid then f x else x := by
  obtain ⟨x, hx, hfx⟩ := List.mem_map.mp h
  exact ⟨x, hx, hfx.symm⟩

/-- A row whose id does not match survives a row update unchanged. -/
theorem mem_updateOrderRow_self {os : List Order} {oid : String} {f : Order → Order}
    {o : Order} (ho : o ∈ os) (hne : o.orderId ≠ oid) : o ∈ updateOrderRow os oid f :=
  List.mem_map.mpr ⟨o, ho, by rw [if_neg hne]⟩

/-- Frame/shape of the orders table after any fulfillment call: either it is
untouched, or the call found a pending/cancelled order and rewrote exactly
the rows with that order id, by the paid update or by a delivery update
whose joined key is non-empty (given that every card key is non-empty). -/
theorem fulfill_orders_shape (isPay : String → Bool) (now : Int) (pick : Nat)
    (resOk : Bool) (st : DBState) (orderId : String) (pa : ℚ) (tn : String)
    (hkeys : ∀ c ∈ st.cards, c.cardKey ≠ "") :
    (processOrderFulfillment isPay now pick resOk st orderId pa tn).2.orders = st.orders ∨
    ∃ o f, st.orders.find? (fun x => x.orderId = orderId) = some o ∧
      (o.status = .pending ∨ o.status = .cancelled) ∧
      (processOrderFulfillment isPay now pick resOk st orderId pa tn).2.orders =
        updateOrderRow st.orders orderId f ∧
      (f = paidOrderUpdate now tn ∨
       ∃ j, j ≠ "" ∧ (f = deliverOrderUpdate now tn j ∨ f = sharedDeliverUpdate now tn j)) := by
  cases hfind : st.orders.find? (fun x => x.orderId = orderId) with
  | none =>
    left
    rw [processOrderFulfillment, hfind]
  | some o =>
    by_cases hamt : |pa - o.amount| > 1/100
    · left
      rw [fulfill_mismatch isPay now pick resOk st orderId pa tn o hfind hamt]
    · by_cases hpay : isPay o.productId = true
      · have hb := fulfill_payment_branch isPay now pick resOk st orderId pa tn o hfind
          hamt hpay
        by_cases hs : o.status = .pending ∨ o.status = .cancelled
        · right
          exact ⟨o, paidOrderUpdate now tn, rfl, hs, by rw [hb, if_pos hs], Or.inl rfl⟩
        · left
          rw [hb, if_neg hs]
      · have hpay' : isPay o.productId = false := by
          revert hpay
          cases isPay o.productId <;> simp
        by_cases hs : o.status = .pending ∨ o.status = .cancelled
        · by_cases hsh : productIsShared st.products o.productId = true
          · have hb := fulfill_shared_eq isPay now pick resOk st orderId pa tn o hfind
              hamt hpay' hs hsh
            cases hse : sharedEligible st.cards o.productId with
            | nil =>
              right
              exact ⟨o, paidOrderUpdate now tn, rfl, hs, by rw [hb, hse]; rfl, Or.inl rfl⟩
            | cons c rest =>
              right
              have hlt : pick % (c :: rest).length < (c :: rest).length :=
                Nat.mod_lt _ (by simp)
              have hmem : (c :: rest).getD (pick % (c :: rest).length) c ∈
                  sharedEligible st.cards o.productId := by
                rw [hse, List.getD_eq_get _ _ hlt]
                exact List.get_mem _ _ _
              have hkey : ((c :: rest).getD (pick % (c :: rest).length) c).cardKey ≠ "" :=
                hkeys _ (sharedEligible_subset st.cards o.productId _ hmem)
              have hj : joinNewline (List.replicate (qtyOf o.quantity)
                  ((c :: rest).getD (pick % (c :: rest).length) c).cardKey) ≠ "" := by
                apply joinNewline_ne_empty
                · apply List.ne_nil_of_length_pos
                  rw [List.length_replicate]
                  exact qtyOf_pos o.quantity
                · intro k hk
                  rw [List.eq_of_mem_replicate hk]
                  exact hkey
              refine ⟨o, sharedDeliverUpdate now tn (joinNewline (List.replicate
                (qtyOf o.quantity) ((c :: rest).getD (pick % (c :: rest).length) c).cardKey)),
                rfl, hs, by rw [hb, hse]; rfl, Or.inr ⟨_, hj, Or.inr rfl⟩⟩
          · have hsh' : productIsShared st.products o.productId = false := by
              revert hsh
              cases productIsShared st.products o.productId <;> simp
            have hb := fulfill_exhaustible_eq isPay now pick resOk st orderId pa tn o hfind
              hamt hpay' hs hsh'
            by_cases hpos : 0 < (exhaustibleAllocate now resOk st.cards orderId o.productId
                (qtyOf o.quantity)).1.length
            · right
              have hj : joinNewline (exhaustibleAllocate now resOk st.cards orderId
                  o.productId (qtyOf o.quantity)).1 ≠ "" := by
                apply joinNewline_ne_empty
                · exact List.ne_nil_of_length_pos hpos
                · intro k hk
                  obtain ⟨c, hc, hck⟩ := List.mem_map.mp
                    (exhaustibleAllocate_keys_sub now resOk st.cards orderId o.productId
                      (qtyOf o.quantity) k hk)
                  rw [← hck]
                  exact hkeys c hc
              refine ⟨o, deliverOrderUpdate now tn (joinNewline (exhaustibleAllocate now
                resOk st.cards orderId o.productId (qtyOf o.quantity)).1),
                rfl, hs, ?_, Or.inr ⟨_, hj, Or.inl rfl⟩⟩
              rw [hb, if_pos hpos]
              rfl
            · right
              refine ⟨o, paidOrderUpdate now tn, rfl, hs, ?_, Or.inl rfl⟩
              rw [hb, if_neg hpos]
              rfl
        · left
          rw [processOrderFulfillment, hfind]
          simp only [if_neg hamt, hpay', Bool.false_eq_true, if_false, if_neg hs]

/-- C7 (amended): assuming the data-model invariants — pairwise-distinct
order ids, non-empty card keys, and every already-delivered order holding a
non-empty `cardKey` — a fulfillment call leaves every delivered order row
untouched (it survives as the unique row with its id), and every delivered
row of the resulting table has a non-empty `cardKey`.  The amendment adds
the proviso that inventory keys are non-empty: a unit whose key is the empty
string is delivered as an empty `cardKey` (see the counterexample). -/
theorem claim_delivered_immutable (isPay : String → Bool) (now : Int) (pick : Nat)
    (resOk : Bool) (st : DBState) (orderId : String) (pa : ℚ) (tn : String)
    (huniq : st.orders.Pairwise (fun a b => a.orderId ≠ b.orderId))
    (hkeys : ∀ c ∈ st.cards, c.cardKey ≠ "")
    (hinv : ∀ o ∈ st.orders, o.status = .delivered → ∃ s, o.cardKey = some s ∧ s ≠ "") :
    (∀ o ∈ st.orders, o.status = .delivered →
      o ∈ (processOrderFulfillment isPay now pick resOk st orderId pa tn).2.orders ∧
      ∀ o2 ∈ (processOrderFulfillment isPay now pick resOk st orderId pa tn).2.orders,
        o2.orderId = o.orderId → o2 = o) ∧
    (∀ o2 ∈ (processOrderFulfillment isPay now pick resOk st orderId pa tn).2.orders,
      o2.status = .delivered → ∃ s, o2.cardKey = some s ∧ s ≠ "") := by
  rcases fulfill_orders_shape isPay now pick resOk st orderId pa tn hkeys with
    hsame | ⟨o0, f, hfind, hs0, heq, hf⟩
  · rw [hsame]
    constructor
    · intro o ho _
      exact ⟨ho, fun o2 ho2 hid => unique_orderId_eq huniq o2 ho2 o ho hid⟩
    · exact hinv
  · have ho0mem : o0 ∈ st.orders := List.mem_of_find?_eq_some hfind
    have hp := List.find?_some hfind
    have ho0id : o0.orderId = orderId := by simpa using hp
    have hfid : ∀ x, (f x).orderId = x.orderId := by
      rcases hf with rfl | ⟨j, _, rfl | rfl⟩
      · exact paidOrderUpdate_orderId now tn
      · exact deliverOrderUpdate_orderId now tn j
      · exact sharedDeliverUpdate_orderId now tn j
    rw [heq]
    constructor
    · intro o ho hdel
      have hone : o.orderId ≠ orderId := by
        intro hoid
        have ho0eq : o = o0 :=
          unique_orderId_eq huniq o ho o0 ho0mem (by rw [hoid, ho0id])
        rw [ho0eq] at hdel
        rcases hs0 with h | h <;> rw [h] at hdel <;> cases hdel
      refine ⟨mem_updateOrderRow_self ho hone, ?_⟩
      intro o2 ho2 hid
      obtain ⟨x, hx, hx2⟩ := mem_updateOrderRow ho2
      by_cases hxid : x.orderId = orderId
      · rw [hx2, if_pos hxid] at hid
        rw [hfid x] at hid
        exact absurd (hid ▸ hxid) (by rw [hid] at hxid; exact fun _ => hone hxid)
      · rw [hx2, if_neg hxid] at hid ⊢
        exact unique_orderId_eq huniq x hx o ho hid
    · intro o2 ho2 hdel
      obtain ⟨x, hx, hx2⟩ := mem_updateOrderRow ho2
      by_cases hxid : x.orderId = orderId
      · rw [hx2, if_pos hxid] at hdel ⊢
        rcases hf with rfl | ⟨j, hj, rfl | rfl⟩
        · cases hdel
        · exact ⟨j, rfl, hj⟩
        · exact ⟨j, rfl, hj⟩
      · rw [hx2, if_neg hxid] at hdel ⊢
        exact hinv x hx hdel

/-- C7 (amended) witness: fulfilling the pending order `"O1"` leaves the
already-delivered order `"O9"` in the table untouched, with its non-empty
key `"K9"`. -/
theorem claim_delivered_immutable_witness :
    deliveredOrder ∈
      (processOrderFulfillment noPay 1000000 0 true deliveredState "O1" (999/100)
        "T1").2.orders ∧
    ∃ s, deliveredOrder.cardKey = some s ∧ s ≠ "" := by
  have h := claim_delivered_immutable noPay 1000000 0 true deliveredState "O1" (999/100)
    "T1"
    (by
      show List.Pairwise _ [deliveredOrder, sampleOrder]
      refine List.Pairwise.cons ?_ (List.pairwise_singleton _ _)
      intro b hb
      rw [List.mem_singleton] at hb
      rw [hb]
      decide)
    (by
      intro c hc
      show c.cardKey ≠ ""
      have hc' : c = sampleCardA ∨ c = sampleCardB := by
        simpa [deliveredState] using hc
      rcases hc' with rfl | rfl <;> decide)
    (by
      intro o ho hdel
      have ho' : o = deliveredOrder ∨ o = sampleOrder := by
        simpa [deliveredState] using ho
      rcases ho' with rfl | rfl
      · exact ⟨"K9", rfl, by decide⟩
      · cases hdel)
  refine ⟨?_, ⟨"K9", rfl, by decide⟩⟩
  exact (h.1 deliveredOrder (List.mem_cons_self _ _) rfl).1

/-- C7 counterexample: the non-empty-`cardKey` half of the claim fails as
stated when an inventory unit's key is the empty string — delivering the
pending sample order from `emptyKeyState` yields a delivered order whose
`cardKey` is `some ""`. -/
theorem claim_delivered_key_counterexample :
    List.find? (fun x => x.orderId = "O1")
        (processOrderFulfillment noPay 1000000 0 true emptyKeyState "O1" (999/100)
          "T1").2.orders =
      some (deliverOrderUpdate 1000000 "T1" "" sampleOrder) ∧
    (deliverOrderUpdate 1000000 "T1" "" sampleOrder).status = .delivered ∧
    (deliverOrderUpdate 1000000 "T1" "" sampleOrder).cardKey = some "" := by
  refine ⟨?_, rfl, rfl⟩
  have hb := fulfill_exhaustible_eq noPay 1000000 0 true emptyKeyState "O1" (999/100) "T1"
    sampleOrder rfl
    (by
      have hz : (999:ℚ)/100 - sampleOrder.amount = 0 := by rw [sampleOrder]; norm_num
      rw [hz]
      norm_num)
    rfl (Or.inl rfl) (by decide)
  rw [hb, if_pos (by decide)]
  show List.find? (fun x => x.orderId = "O1")
      (updateOrderRow emptyKeyState.orders "O1"
        (deliverOrderUpdate 1000000 "T1"
          (joinNewline (exhaustibleAllocate 1000000 true emptyKeyState.cards "O1"
            sampleOrder.productId (qtyOf sampleOrder.quantity)).1))) =
    some (deliverOrderUpdate 1000000 "T1" "" sampleOrder)
  have hjk : joinNewline (exhaustibleAllocate 1000000 true emptyKeyState.cards "O1"
      sampleOrder.productId (qtyOf sampleOrder.quantity)).1 = "" := by decide
  rw [hjk,
    find?_updateOrderRow emptyKeyState.orders "O1" _ (deliverOrderUpdate_orderId 1000000
      "T1" "")]
  rfl
